import Mathlib

/-!
Verification development for the `hncli` Hacker News terminal client.

The Python sources are embedded shallowly:

* JSON values (`Json`) model the parsed bodies the client caches; Python
  truthiness (`if cached:`) is modelled by `pyTruthy`.
* The TTL cache (`cache.py`) keeps a dict `_cache : key -> (timestamp, value)`,
  modelled as a partial function `CacheMap`; the on-disk mirror is a directory
  listing `Disk` of file stems paired with the parse result of the file
  (`none` models an unreadable or malformed file).  The `try/except: pass`
  blocks around every disk operation are modelled by boolean success
  parameters (`write_ok`, `del_ok`): the functions are total and their
  in-memory result is independent of those flags exactly where the source
  swallows the exception.
* The remote client (`cli.py`: `get_story_ids` / `get_item` / `get_user`)
  takes the HTTP layer as an oracle `String → Except String Json`
  (`.error` models `requests` raising, including `raise_for_status`) and
  additionally returns the list of URLs it requested.
* The pagination engine is `browse_stories`' loop state (`PageState`) with
  one step per iteration: the resize recomputation at the top of the loop
  (`resize`) followed by the navigation command dispatch (`apply_command`).
* The comment navigator models the selection arithmetic (`nav_step`,
  Python `%` on a possibly negative left operand is `Int.emod`) and the
  `expand_comment_tree`/`collect` flatten (`collect`), with the stdlib text
  collaborators (`html.unescape`, the tag-stripping regex, `textwrap.fill`)
  passed in as function parameters and a fuel argument bounding the
  recursion depth.  `collect` also returns the list of item ids it fetched.
-/

namespace HNCli

/-- JSON values as returned by the remote API and stored in the cache.
Objects are association lists (Python dicts have unique keys). -/
inductive Json where
  | null : Json
  | bool (b : Bool) : Json
  | num (n : Int) : Json
  | str (s : String) : Json
  | arr (elems : List Json) : Json
  | obj (fields : List (String × Json)) : Json

/-- Python truthiness of a JSON value: `None`, `False`, `0`, `""`, `[]`, and
an empty dict are falsy, everything else is truthy.  This is the test the
remote client applies to the cache result (`if cached:`). -/
def pyTruthy : Json → Bool
  | Json.null => false
  | Json.bool b => b
  | Json.num n => !(n == 0)
  | Json.str s => !(s == "")
  | Json.arr elems => !elems.isEmpty
  | Json.obj fields => !fields.isEmpty

/-- Python `dict.get(k)` on a JSON object: the stored value, or `None` when
the key is missing or the value is not a dict. -/
def json_get (j : Json) (k : String) : Json :=
  match j with
  | Json.obj fields =>
    match fields.lookup k with
    | some v => v
    | none => Json.null
  | _ => Json.null

/-- Python `str.isdigit()` restricted to ASCII strings: non-empty and all
characters are decimal digits. -/
def py_isdigit (s : String) : Bool :=
  !s.data.isEmpty && s.data.all Char.isDigit

/-- Python `int(s)` on a string of decimal digits. -/
def py_int (s : String) : Nat :=
  s.data.foldl (fun a c => 10 * a + (c.toNat - 48)) 0

/-- Python `str.lower()` restricted to ASCII strings: lower-case each
character. -/
def py_lower (s : String) : String :=
  String.mk (s.data.map Char.toLower)

namespace Cache

/-- The in-memory cache `_cache : \x7bkey: (timestamp, value)\x7d` of `cache.py`,
modelled as a partial function from keys (a dict has one entry per key). -/
abbrev CacheMap : Type := String → Option (Int × Json)

/-- A cache directory listing: one entry per `<key>.json` file, the `stem`
paired with the parse result of its content (`none` models a file that
cannot be read or holds malformed JSON). -/
abbrev Disk : Type := List (String × Option (Int × Json))

/-- Source: `cache.cache_key(prefix, *args)` returns
`f"\x7bprefix\x7d_\x7b'-'.join(str(arg) for arg in args)\x7d"`.  The arguments arrive
here already converted by `str`. -/
def cache_key (pre : String) (args : List String) : String :=
  pre ++ "_" ++ String.intercalate "-" args

/-- Source: `cache.get(key, ttl)` returns the stored value if the key is
present and `time.time() - timestamp < ttl`, and Python `None` (here
`Json.null`) otherwise. -/
def get (m : CacheMap) (k : String) (ttl : Int) (now : Int) : Json :=
  match m k with
  | some (timestamp, value) => if now - timestamp < ttl then value else Json.null
  | none => Json.null

/-- Source: the in-memory effect of `cache.set(key, value)`:
`_cache[key] = (time.time(), value)`. -/
def set (m : CacheMap) (k : String) (v : Json) (now : Int) : CacheMap :=
  fun q => if q = k then some (now, v) else m q

/-- Source: `cache.save_cache_to_disk(key)` writes `_cache[key]` to
`<key>.json`, ignoring any error (`except Exception: pass`): on failure
(`write_ok = false`) the directory is unchanged. -/
def save_cache_to_disk (m : CacheMap) (k : String) (write_ok : Bool) (disk : Disk) : Disk :=
  match m k with
  | some entry =>
    if write_ok then (k, some entry) :: disk.filter (fun f => f.1 ≠ k) else disk
  | none => disk

/-- Source: `cache.set(key, value)` updates the dict and then calls
`save_cache_to_disk(key)`. -/
def set_op (m : CacheMap) (disk : Disk) (k : String) (v : Json) (now : Int)
    (write_ok : Bool) : CacheMap × Disk :=
  let m' := set m k v now
  (m', save_cache_to_disk m' k write_ok disk)

/-- Source: `cache.load_cache_from_disk()` iterates the `*.json` files and
assigns `_cache[stem] = tuple(json.load(f))`; a file whose open or parse
raises is skipped (`except Exception: pass`). -/
def load_cache_from_disk (files : Disk) (m : CacheMap) : CacheMap :=
  match files with
  | [] => m
  | (k, some entry) :: rest =>
    load_cache_from_disk rest (fun q => if q = k then some entry else m q)
  | (_, none) :: rest => load_cache_from_disk rest m

/-- Source: `cache.clear()` empties the dict and unlinks every cache file,
ignoring deletion errors: a file whose deletion fails (`del_ok` false)
stays on disk. -/
def clear (_m : CacheMap) (disk : Disk) (del_ok : String → Bool) : CacheMap × Disk :=
  (fun _ => none, disk.filter (fun f => !(del_ok f.1)))

/-- The membership test of `cache.clear_expired`: key `k` is collected into
`expired_keys` iff it is present and `now - timestamp >= ttl`. -/
def is_expired (m : CacheMap) (ttl : Int) (now : Int) (k : String) : Bool :=
  match m k with
  | some (timestamp, _) => decide (ttl ≤ now - timestamp)
  | none => false

/-- Source: `cache.clear_expired(ttl)` deletes every expired key from the
dict and unlinks its file best-effort (deletion failure keeps the file,
never raises). -/
def clear_expired (m : CacheMap) (disk : Disk) (ttl : Int) (now : Int)
    (del_ok : String → Bool) : CacheMap × Disk :=
  (fun q => if is_expired m ttl now q then none else m q,
   disk.filter (fun f => !(is_expired m ttl now f.1 && del_ok f.1)))

end Cache

namespace Cli

open Cache

/-- Source: `BASE_URL` in `cli.py`. -/
def BASE_URL : String := "https://hacker-news.firebaseio.com/v0"

/-- Source: `ITEM_URL` in `cli.py`. -/
def ITEM_URL : String := BASE_URL ++ "/item"

/-- Source: `USER_URL` in `cli.py`. -/
def USER_URL : String := BASE_URL ++ "/user"

/-- Source: `get_story_ids(story_type)`.  `ttl_minutes` stands for
`get_config_value("cache_timeout_minutes", 5)`, `now` for `time.time()`,
`http` for the `requests` layer (`.error` models a raised request error,
including `raise_for_status` on a non-2xx response).  Returns the parsed
body, the cache after the call, and the list of URLs requested. -/
def get_story_ids (story_type : String) (ttl_minutes : Int) (now : Int)
    (m : CacheMap) (http : String → Except String Json) :
    Except String (Json × CacheMap × List String) :=
  let key := cache_key "stories" [story_type]
  let cached := get m key (ttl_minutes * 60) now
  if pyTruthy cached then Except.ok (cached, m, [])
  else
    match http (BASE_URL ++ "/" ++ story_type ++ "stories.json") with
    | Except.ok result =>
      Except.ok (result, set m key result now, [BASE_URL ++ "/" ++ story_type ++ "stories.json"])
    | Except.error e => Except.error e

/-- Source: `get_item(item_id)`, same shape as `get_story_ids`. -/
def get_item (item_id : Int) (ttl_minutes : Int) (now : Int)
    (m : CacheMap) (http : String → Except String Json) :
    Except String (Json × CacheMap × List String) :=
  let key := cache_key "item" [toString item_id]
  let cached := get m key (ttl_minutes * 60) now
  if pyTruthy cached then Except.ok (cached, m, [])
  else
    match http (ITEM_URL ++ "/" ++ toString item_id ++ ".json") with
    | Except.ok result =>
      Except.ok (result, set m key result now, [ITEM_URL ++ "/" ++ toString item_id ++ ".json"])
    | Except.error e => Except.error e

/-- Source: `get_user(username)`, same shape as `get_story_ids`. -/
def get_user (username : String) (ttl_minutes : Int) (now : Int)
    (m : CacheMap) (http : String → Except String Json) :
    Except String (Json × CacheMap × List String) :=
  let key := cache_key "user" [username]
  let cached := get m key (ttl_minutes * 60) now
  if pyTruthy cached then Except.ok (cached, m, [])
  else
    match http (USER_URL ++ "/" ++ username ++ ".json") with
    | Except.ok result =>
      Except.ok (result, set m key result now, [USER_URL ++ "/" ++ username ++ ".json"])
    | Except.error e => Except.error e

/-- Source: `calculate_stories_per_page()`:
`available_rows = max(rows - 8, 1)` then `max(10, min(available_rows, 20))`. -/
def calculate_stories_per_page (rows : Nat) : Nat :=
  max 10 (min (max (rows - 8) 1) 20)

/-- Source: `total_pages = (total_stories + stories_per_page - 1) // stories_per_page`
(appears in `browse_stories` initialisation, resize recomputation and
refresh). -/
def total_pages_of (total : Nat) (spp : Nat) : Nat :=
  (total + spp - 1) / spp

/-- The loop state of `browse_stories`: the local variables
`current_page`, `total_pages`, `stories_per_page` and `story_ids`
(`total_stories` is always `story_ids.length`). -/
structure PageState where
  current_page : Nat
  total_pages : Nat
  stories_per_page : Nat
  story_ids : List Nat
deriving Repr, DecidableEq

/-- State of `browse_stories` right before its `while` loop: page one of
`(len(story_ids) + spp - 1) // spp` pages. -/
def browse_init (ids : List Nat) (spp : Nat) : PageState :=
  { current_page := 1
    total_pages := total_pages_of ids.length spp
    stories_per_page := spp
    story_ids := ids }

/-- Source: the resize block at the top of the `browse_stories` loop: if
`stories_per_page != calculate_stories_per_page()` it re-derives
`stories_per_page`, recomputes `total_pages` and clamps
`current_page = min(current_page, total_pages)`. -/
def resize (rows : Nat) (s : PageState) : PageState :=
  if s.stories_per_page = calculate_stories_per_page rows then s
  else
    let spp := calculate_stories_per_page rows
    let tp := total_pages_of s.story_ids.length spp
    { s with
      stories_per_page := spp
      total_pages := tp
      current_page := min s.current_page tp }

/-- Python list slicing `l[start:stop]` for `0 <= start <= stop`. -/
def py_slice (l : List Nat) (start : Nat) (stop : Nat) : List Nat :=
  (l.drop start).take (stop - start)

/-- Source: the page materialisation in `browse_stories`:
`start_idx = (current_page - 1) * stories_per_page`,
`end_idx = min(start_idx + stories_per_page, total_stories)`, and the loop
runs over `story_ids[start_idx:end_idx]`. -/
def page_slice (ids : List Nat) (current_page : Nat) (spp : Nat) : List Nat :=
  let start_idx := (current_page - 1) * spp
  let end_idx := min (start_idx + spp) ids.length
  py_slice ids start_idx end_idx

/-- Source: the command dispatch at the bottom of the `browse_stories`
loop.  `fetched` stands for the result of `get_story_ids` after the `'r'`
branch clears the cache; a digit command opens a story and changes no page
state; unknown commands fall through. -/
def apply_command (command : String) (fetched : List Nat) (s : PageState) : PageState :=
  if py_lower command = "n" then
    (if s.current_page < s.total_pages then { s with current_page := s.current_page + 1 } else s)
  else if py_lower command = "p" then
    (if s.current_page > 1 then { s with current_page := s.current_page - 1 } else s)
  else if py_lower command = "r" then
    { s with
      story_ids := fetched
      total_pages := total_pages_of fetched.length s.stories_per_page }
  else if py_lower command = "q" then s
  else if py_isdigit command then s
  else s

/-- One full iteration of the `browse_stories` loop: the resize
recomputation followed by the navigation command. -/
def browse_step (rows : Nat) (command : String) (fetched : List Nat) (s : PageState) : PageState :=
  apply_command command fetched (resize rows s)

/-- The page-state invariant claimed by the spec. -/
abbrev PageInv (s : PageState) : Prop :=
  1 ≤ s.current_page ∧ s.current_page ≤ s.total_pages ∧
    s.total_pages = total_pages_of s.story_ids.length s.stories_per_page ∧
    1 ≤ s.stories_per_page ∧ s.story_ids ≠ []

/-- Source: the per-story filter in the page loop of `browse_stories`:
`if story and story.get("type") == "story"`. -/
def is_story_item (j : Json) : Bool :=
  pyTruthy j &&
    (match json_get j "type" with
     | Json.str t => t == "story"
     | _ => false)

/-- Source: the page-materialisation loop of `browse_stories`: for each id
of the slice, `get_item` is attempted; on success a story-typed item is
appended to `stories`; on a raised error an inline line
`Error fetching story \x7bstory_id\x7d: \x7be\x7d` is printed and the loop continues.
Returns `(stories, error lines, ids fetched)`. -/
def load_page (ids : List Nat) (fetch : Nat → Except String Json) :
    List Json × List String × List Nat :=
  match ids with
  | [] => ([], [], [])
  | id :: rest =>
    match fetch id with
    | Except.ok story =>
      let r := load_page rest fetch
      (if is_story_item story then story :: r.1 else r.1, r.2.1, id :: r.2.2)
    | Except.error e =>
      let r := load_page rest fetch
      (r.1, ("Error fetching story " ++ toString id ++ ": " ++ e) :: r.2.1, id :: r.2.2)

/-- Source: the arrow-key dispatch of the List state in
`display_comments`: `selected = (selected - 1) % n` on UP,
`selected = (selected + 1) % n` on DOWN, anything else leaves the
selection unchanged (Enter expands, q/b exit the loop).  Python `%` on a
negative left operand and positive right operand is `Int.emod`. -/
def nav_step (key : String) (selected : Int) (n : Int) : Int :=
  if key = "UP" then (selected - 1) % n
  else if key = "DOWN" then (selected + 1) % n
  else selected

end Cli

/-- One comment item as used by `display_comments`: the fields the code
reads, with `deleted`/`dead` as key-presence flags (`"deleted" in comment`). -/
structure Comment where
  author : Option String
  time : Option Int
  text : Option String
  deleted : Bool
  dead : Bool
  kids : List Nat
deriving Repr, DecidableEq

namespace Cli

/-- Source: `format_time_ago(timestamp)` of `cli.py` with
`datetime.now().timestamp()` passed in as `now`; Python `//` on the
non-negative quantities involved is `Int.ediv`, Lean's `/`. -/
def format_time_ago (now : Int) (timestamp : Int) : String :=
  let seconds_ago := now - timestamp
  if seconds_ago < 60 then toString seconds_ago ++ " seconds ago"
  else
    let minutes_ago := seconds_ago / 60
    if minutes_ago < 60 then toString minutes_ago ++ " minutes ago"
    else
      let hours_ago := minutes_ago / 60
      if hours_ago < 24 then toString hours_ago ++ " hours ago"
      else
        let days_ago := hours_ago / 24
        if days_ago < 30 then toString days_ago ++ " days ago"
        else
          let months_ago := days_ago / 30
          if months_ago < 12 then toString months_ago ++ " months ago"
          else toString (months_ago / 12) ++ " years ago"

/-- The item store seen by the comment navigator: `store i` is the usable
comment `get_item(i)` yields, or `none` when the fetch raises, returns
`null`, or returns a falsy value (`if not cmt`). -/
abbrev CommentStore : Type := Nat → Option Comment

/-- Source: the pre-fetch loop of `display_comments`: for each parent id,
`get_item` is attempted (`except Exception: pass`), and the comment is
kept iff truthy and neither `deleted` nor `dead` is present. -/
def parent_comments_of (store : CommentStore) : List Nat → List Comment
  | [] => []
  | cid :: rest =>
    match store cid with
    | some c =>
      if !c.deleted && !c.dead then c :: parent_comments_of store rest
      else parent_comments_of store rest
    | none => parent_comments_of store rest

/-- Python `"  " * depth`. -/
def indent_of (depth : Nat) : String :=
  String.mk (List.replicate (2 * depth) ' ')

/-- Source: `collect(cmt, depth)` inside `expand_comment_tree`: a falsy,
deleted or dead comment contributes nothing and returns before touching
its children; otherwise a header line, the wrapped body lines and a blank
line are appended, then each kid id is fetched (`get_item(kid)`, a raised
error skipping that child) and collected at `depth + 1`.  `unescape`,
`strip_tags` and `fill` stand for `html.unescape`, the `<[^>]+>`-stripping
regex and `textwrap.fill`; `fuel` bounds the recursion depth.  Returns the
flattened lines and the list of item ids fetched for kids. -/
def collect (store : CommentStore) (unescape : String → String)
    (strip_tags : String → String) (fill : Nat → String → List String)
    (now : Int) (cols : Nat) :
    Nat → Option Comment → Nat → List String × List Nat
  | _, none, _ => ([], [])
  | 0, some _, _ => ([], [])
  | fuel + 1, some c, depth =>
    if c.deleted || c.dead then ([], [])
    else
      let indent := indent_of depth
      let header := indent ++ "[bold]" ++ c.author.getD "unknown" ++ "[/bold] " ++
        format_time_ago now (c.time.getD 0)
      let text :=
        strip_tags (((unescape (c.text.getD "")).replace "<p>" "\n\n").replace "</p>" "")
      let wrap_width := min 100 (cols - indent.length - 5)
      let body := (fill wrap_width text).map (fun ln => indent ++ ln)
      let kid_results := c.kids.map
        (fun kid =>
          let r := collect store unescape strip_tags fill now cols fuel (store kid) (depth + 1)
          (r.1, kid :: r.2))
      (header :: body ++ [""] ++ (kid_results.map Prod.fst).flatten,
       (kid_results.map Prod.snd).flatten)

end Cli

/-- The coerced value stored by the `config_set` command. -/
inductive ConfigValue where
  | bool (b : Bool) : ConfigValue
  | int (n : Nat) : ConfigValue
  | str (s : String) : ConfigValue
deriving Repr, DecidableEq

/-- Source: the value coercion of `config_set(key, value)` in `cli.py`
(identical in the top-level `hncli.py`): case-insensitive boolean words
first, then `value.isdigit()` to `int(value)`, else the original string. -/
def config_set_value (value : String) : ConfigValue :=
  if py_lower value ∈ ["true", "yes", "y", "1"] then ConfigValue.bool true
  else if py_lower value ∈ ["false", "no", "n", "0"] then ConfigValue.bool false
  else if py_isdigit value then ConfigValue.int (py_int value)
  else ConfigValue.str value

/-! Proof-side helpers: a decimal evaluator for character lists, used to
show that Python `str` on integers (Lean `toString`, i.e. `Nat.repr` /
`Int.repr`) is injective, which the cache-key collision claim needs. -/

/-- Numeric value of an ASCII digit character. -/
def digit_val (c : Char) : Nat := c.toNat - 48

/-- Evaluate a list of decimal digit characters left to right, starting
from accumulator `a`. -/
def decimal_fold (l : List Char) (a : Nat) : Nat :=
  l.foldl (fun x c => 10 * x + digit_val c) a

/-! ## Theorems -/

theorem decimal_fold_cons (c : Char) (l : List Char) (a : Nat) :
    decimal_fold (c :: l) a = decimal_fold l (10 * a + digit_val c) := rfl

theorem digit_val_digitChar : ∀ m, m < 10 → digit_val (Nat.digitChar m) = m := by decide

theorem digitChar_isDigit : ∀ m, m < 10 → (Nat.digitChar m).isDigit = true := by decide

theorem toDigitsCore_fold (f : Nat) : ∀ (n : Nat) (ds : List Char) (a : Nat), n < f →
    decimal_fold (Nat.toDigitsCore 10 f n ds) a =
      decimal_fold ds (a * 10 ^ (Nat.log 10 n + 1) + n) := by
  induction f with
  | zero => exact fun n ds a h => absurd h (Nat.not_lt_zero n)
  | succ f ih =>
    intro n ds a h
    by_cases h10 : n / 10 = 0
    · have hn10 : n < 10 := by
        rcases Nat.lt_or_ge n 10 with hlt | hge
        · exact hlt
        · exact absurd h10 (by
            have : 1 ≤ n / 10 := (Nat.one_le_div_iff (by norm_num)).mpr hge
            omega)
      have hlog : Nat.log 10 n = 0 := Nat.log_eq_zero_iff.mpr (Or.inl hn10)
      have hmod : n % 10 = n := Nat.mod_eq_of_lt hn10
      have hstep : Nat.toDigitsCore 10 (f + 1) n ds = Nat.digitChar (n % 10) :: ds := by
        simp [Nat.toDigitsCore, h10]
      rw [hstep, decimal_fold_cons, digit_val_digitChar _ (Nat.mod_lt n (by norm_num)),
        hmod, hlog]
      norm_num [mul_comm]
    · have hge : 10 ≤ n := by
        rcases Nat.lt_or_ge n 10 with hlt | hge
        · exact absurd (Nat.div_eq_of_lt hlt) h10
        · exact hge
      have hlt : n / 10 < f := by
        have h1 : n / 10 < n := Nat.div_lt_self (by omega) (by norm_num)
        omega
      have hstep : Nat.toDigitsCore 10 (f + 1) n ds =
          Nat.toDigitsCore 10 f (n / 10) (Nat.digitChar (n % 10) :: ds) := by
        simp [Nat.toDigitsCore, h10]
      rw [hstep, ih (n / 10) _ _ hlt, decimal_fold_cons,
        digit_val_digitChar _ (Nat.mod_lt n (by norm_num))]
      have hlog : Nat.log 10 n = Nat.log 10 (n / 10) + 1 := by
        have hd := Nat.log_div_base 10 n
        have hpos : 0 < Nat.log 10 n := Nat.log_pos (by norm_num) hge
        omega
      rw [hlog]
      congr 1
      have hmod : 10 * (n / 10) + n % 10 = n := by omega
      have hre : 10 * (a * 10 ^ (Nat.log 10 (n / 10) + 1) + n / 10) + n % 10 =
          a * (10 ^ (Nat.log 10 (n / 10) + 1) * 10) + (10 * (n / 10) + n % 10) := by ring
      rw [hre, hmod, ← pow_succ]

theorem decimal_fold_repr (n : Nat) : decimal_fold (Nat.repr n).data 0 = n := by
  show decimal_fold (Nat.toDigits 10 n).asString.data 0 = n
  have hd : (Nat.toDigits 10 n).asString.data = Nat.toDigits 10 n := rfl
  rw [hd]
  show decimal_fold (Nat.toDigitsCore 10 (n + 1) n []) 0 = n
  rw [toDigitsCore_fold (n + 1) n [] 0 (Nat.lt_succ_self n)]
  simp [decimal_fold]

theorem Nat_repr_injective {m n : Nat} (h : Nat.repr m = Nat.repr n) : m = n := by
  rw [← decimal_fold_repr m, ← decimal_fold_repr n, h]

theorem toDigitsCore_all_digits (f : Nat) : ∀ (n : Nat) (ds : List Char),
    (∀ c ∈ ds, c.isDigit = true) →
    ∀ c ∈ Nat.toDigitsCore 10 f n ds, c.isDigit = true := by
  induction f with
  | zero => intro n ds hds; simpa [Nat.toDigitsCore] using hds
  | succ f ih =>
    intro n ds hds c hc
    have hd : ∀ x ∈ Nat.digitChar (n % 10) :: ds, x.isDigit = true := by
      intro x hx
      rcases List.mem_cons.mp hx with hx | hx
      · subst hx; exact digitChar_isDigit _ (Nat.mod_lt n (by norm_num))
      · exact hds x hx
    by_cases h10 : n / 10 = 0
    · simp only [Nat.toDigitsCore, h10, if_pos rfl] at hc
      exact hd c hc
    · simp only [Nat.toDigitsCore, h10, if_neg h10] at hc
      exact ih (n / 10) _ hd c hc

theorem repr_all_digits (n : Nat) : ∀ c ∈ (Nat.repr n).data, c.isDigit = true := by
  show ∀ c ∈ (Nat.toDigits 10 n).asString.data, c.isDigit = true
  have hd : (Nat.toDigits 10 n).asString.data = Nat.toDigitsCore 10 (n + 1) n [] := rfl
  rw [hd]
  exact toDigitsCore_all_digits (n + 1) n [] (by simp)

theorem Int_toString_injective {i j : Int} (h : toString i = toString j) : i = j := by
  have h' : Int.repr i = Int.repr j := h
  cases i with
  | ofNat m =>
    cases j with
    | ofNat n =>
      have : Nat.repr m = Nat.repr n := h'
      exact congrArg Int.ofNat (Nat_repr_injective this)
    | negSucc n =>
      exfalso
      have hdata : (Nat.repr m).data = '-' :: (Nat.repr (n + 1)).data := by
        have h2 : Nat.repr m = "-" ++ Nat.repr (n + 1) := h'
        rw [h2, String.data_append]
        rfl
      have hmem : '-' ∈ (Nat.repr m).data := by rw [hdata]; exact List.mem_cons_self _ _
      have := repr_all_digits m '-' hmem
      simp at this
  | negSucc m =>
    cases j with
    | ofNat n =>
      exfalso
      have hdata : (Nat.repr n).data = '-' :: (Nat.repr (m + 1)).data := by
        have h2 : "-" ++ Nat.repr (m + 1) = Nat.repr n := h'
        rw [← h2, String.data_append]
        rfl
      have hmem : '-' ∈ (Nat.repr n).data := by rw [hdata]; exact List.mem_cons_self _ _
      have := repr_all_digits n '-' hmem
      simp at this
    | negSucc n =>
      have h2 : "-" ++ Nat.repr (m + 1) = "-" ++ Nat.repr (n + 1) := h'
      have hdata : ('-' : Char) :: (Nat.repr (m + 1)).data =
          '-' :: (Nat.repr (n + 1)).data := by
        have := congrArg String.data h2
        rwa [String.data_append, String.data_append] at this
      have hd : (Nat.repr (m + 1)).data = (Nat.repr (n + 1)).data := by
        injection hdata
      have hrepr : Nat.repr (m + 1) = Nat.repr (n + 1) := by
        cases hm : Nat.repr (m + 1) with
        | mk dm =>
          cases hn : Nat.repr (n + 1) with
          | mk dn =>
            rw [hm, hn] at hd
            exact congrArg String.mk hd
      have hmn : m + 1 = n + 1 := Nat_repr_injective hrepr
      exact congrArg Int.negSucc (by omega)

/-- C1 counterexample: the claim "for `total_items = 0` and any
`stories_per_page >= 1`, `total_pages == 1` and the page slice contains no
items" is false at `stories_per_page = 10`: the code computes
`total_pages = (0 + 10 - 1) // 10 = 0`, not 1. -/
theorem pagination_zero_items_claim_false :
    ¬ (Cli.total_pages_of 0 10 = 1 ∧ Cli.page_slice [] 1 10 = []) := by
  decide

/-- C1 (amended): for `total_items = 0` and any `stories_per_page >= 1`,
the code computes `total_pages == 0` (not 1), and the page slice for the
initial page 1 contains no items. -/
theorem pagination_zero_items (spp : Nat) (h : 1 ≤ spp) :
    Cli.total_pages_of 0 spp = 0 ∧ Cli.page_slice [] 1 spp = [] := by
  constructor
  · show (0 + spp - 1) / spp = 0
    exact Nat.div_eq_of_lt (by omega)
  · simp [Cli.page_slice, Cli.py_slice]

/-- Witness for `pagination_zero_items` at `stories_per_page = 10`. -/
theorem pagination_zero_items_witness :
    Cli.total_pages_of 0 10 = 0 ∧ Cli.page_slice [] 1 10 = [] :=
  pagination_zero_items 10 (by decide)

/-- C4: `set(k, v)` immediately followed by `get(k, ttl)` with `ttl > 0`
returns `v`; once the elapsed time since the `set` reaches or exceeds
`ttl`, `get` reports absent (Python `None`, our `Json.null`). -/
theorem cache_set_get_roundtrip (m : Cache.CacheMap) (k : String) (v : Json)
    (now now' ttl : Int) :
    (0 < ttl → Cache.get (Cache.set m k v now) k ttl now = v) ∧
    (ttl ≤ now' - now → Cache.get (Cache.set m k v now) k ttl now' = Json.null) := by
  have h1 : Cache.set m k v now k = some (now, v) := by
    unfold Cache.set
    exact if_pos rfl
  have hget : ∀ t : Int, Cache.get (Cache.set m k v now) k ttl t =
      if t - now < ttl then v else Json.null := by
    intro t
    unfold Cache.get
    rw [h1]
  constructor
  · intro httl
    rw [hget now, if_pos (by omega)]
  · intro hexp
    rw [hget now', if_neg (by omega)]

/-- Witness for `cache_set_get_roundtrip`: a concrete set/get round trip
and a concrete expiry. -/
theorem cache_set_get_roundtrip_witness :
    Cache.get (Cache.set (fun _ => none) "stories_top" (Json.num 7) 0) "stories_top" 300 0 =
      Json.num 7 ∧
    Cache.get (Cache.set (fun _ => none) "stories_top" (Json.num 7) 0) "stories_top" 300 300 =
      Json.null :=
  ⟨(cache_set_get_roundtrip (fun _ => none) "stories_top" (Json.num 7) 0 300 300).1 (by decide),
   (cache_set_get_roundtrip (fun _ => none) "stories_top" (Json.num 7) 0 300 300).2 (by decide)⟩

/-- C8: in the List state of the comment navigator, with `n ≥ 1` resolved
top-level comments and a selection `s` with `0 ≤ s < n`: DOWN at the last
index wraps to 0, UP at index 0 wraps to `n - 1`, otherwise UP/DOWN move
the selection by one, and every keypress keeps the index in `[0, n-1]`. -/
theorem nav_selection_wraps (n s : Int) (hn : 0 < n) (h0 : 0 ≤ s) (hs : s < n) :
    (s = n - 1 → Cli.nav_step "DOWN" s n = 0) ∧
    (s = 0 → Cli.nav_step "UP" s n = n - 1) ∧
    (s < n - 1 → Cli.nav_step "DOWN" s n = s + 1) ∧
    (0 < s → Cli.nav_step "UP" s n = s - 1) ∧
    (∀ key : String, 0 ≤ Cli.nav_step key s n ∧ Cli.nav_step key s n < n) := by
  have hdown : Cli.nav_step "DOWN" s n = (s + 1) % n := by simp [Cli.nav_step]
  have hup : Cli.nav_step "UP" s n = (s - 1) % n := by simp [Cli.nav_step]
  refine ⟨?_, ?_, ?_, ?_, ?_⟩
  · intro hlast
    rw [hdown, hlast]
    have : n - 1 + 1 = n := by ring
    rw [this, Int.emod_self]
  · intro hfirst
    rw [hup, hfirst]
    have : (0 : Int) - 1 = (n - 1) + n * (-1) := by ring
    rw [this, Int.add_mul_emod_self_left]
    exact Int.emod_eq_of_lt (by omega) (by omega)
  · intro hin
    rw [hdown]
    exact Int.emod_eq_of_lt (by omega) (by omega)
  · intro hpos
    rw [hup]
    exact Int.emod_eq_of_lt (by omega) (by omega)
  · intro key
    by_cases hU : key = "UP"
    · subst hU
      rw [hup]
      exact ⟨Int.emod_nonneg _ (by omega), Int.emod_lt_of_pos _ hn⟩
    · by_cases hD : key = "DOWN"
      · subst hD
        rw [hdown]
        exact ⟨Int.emod_nonneg _ (by omega), Int.emod_lt_of_pos _ hn⟩
      · have : Cli.nav_step key s n = s := by simp [Cli.nav_step, hU, hD]
        rw [this]
        exact ⟨h0, hs⟩

/-- Witness for `nav_selection_wraps` with 3 comments: DOWN at index 2
wraps to 0, UP at index 0 wraps to 2, and an unrelated key keeps the
selection in range. -/
theorem nav_selection_wraps_witness :
    Cli.nav_step "DOWN" 2 3 = 0 ∧ Cli.nav_step "UP" 0 3 = 2 ∧
    (0 ≤ Cli.nav_step "x" 2 3 ∧ Cli.nav_step "x" 2 3 < 3) :=
  ⟨(nav_selection_wraps 3 2 (by decide) (by decide) (by decide)).1 (by decide),
   (nav_selection_wraps 3 0 (by decide) (by decide) (by decide)).2.1 (by decide),
   (nav_selection_wraps 3 2 (by decide) (by decide) (by decide)).2.2.2.2 "x"⟩

/-- C10: the `config_set` coercion: a case-insensitive boolean word is
stored as the corresponding boolean (so `"1"` and `"0"` are stored as
booleans, never as integers), any other all-digit string is stored as an
int, and every other value is stored as the original string. -/
theorem config_set_coercion (v : String) :
    (py_lower v ∈ ["true", "yes", "y", "1"] → config_set_value v = ConfigValue.bool true) ∧
    (py_lower v ∈ ["false", "no", "n", "0"] → config_set_value v = ConfigValue.bool false) ∧
    (py_lower v ∉ ["true", "yes", "y", "1"] → py_lower v ∉ ["false", "no", "n", "0"] →
      py_isdigit v = true → config_set_value v = ConfigValue.int (py_int v)) ∧
    (py_lower v ∉ ["true", "yes", "y", "1"] → py_lower v ∉ ["false", "no", "n", "0"] →
      py_isdigit v = false → config_set_value v = ConfigValue.str v) ∧
    (∀ n : Nat, config_set_value "1" ≠ ConfigValue.int n ∧
      config_set_value "0" ≠ ConfigValue.int n) := by
  refine ⟨?_, ?_, ?_, ?_, ?_⟩
  · intro h
    simp [config_set_value, h]
  · intro h
    have ht : py_lower v ∉ ["true", "yes", "y", "1"] := by
      simp only [List.mem_cons, List.not_mem_nil, or_false] at h
      rcases h with h | h | h | h <;> rw [h] <;> decide
    simp [config_set_value, ht, h]
  · intro ht hf hd
    simp [config_set_value, ht, hf, hd]
  · intro ht hf hd
    simp [config_set_value, ht, hf, hd]
  · intro n
    have h1 : config_set_value "1" = ConfigValue.bool true := by decide
    have h0 : config_set_value "0" = ConfigValue.bool false := by decide
    rw [h1, h0]
    exact ⟨fun h => ConfigValue.noConfusion h, fun h => ConfigValue.noConfusion h⟩

/-- Witness for `config_set_coercion` on concrete inputs: `"TRUE"` and
`"No"` store booleans, `"007"` stores the int 7, `"hello"` stays a
string, and `"1"` is not stored as the integer 1. -/
theorem config_set_coercion_witness :
    config_set_value "TRUE" = ConfigValue.bool true ∧
    config_set_value "No" = ConfigValue.bool false ∧
    config_set_value "007" = ConfigValue.int 7 ∧
    config_set_value "hello" = ConfigValue.str "hello" ∧
    config_set_value "1" ≠ ConfigValue.int 1 :=
  ⟨(config_set_coercion "TRUE").1 (by decide),
   (config_set_coercion "No").2.1 (by decide),
   by
     have h := (config_set_coercion "007").2.2.1 (by decide) (by decide) (by decide)
     have hv : py_int "007" = 7 := by decide
     rwa [hv] at h,
   (config_set_coercion "hello").2.2.2.1 (by decide) (by decide) (by decide),
   ((config_set_coercion "hello").2.2.2.2 1).1⟩

theorem one_le_total_pages (total spp : Nat) (ht : 1 ≤ total) (hs : 1 ≤ spp) :
    1 ≤ Cli.total_pages_of total spp := by
  unfold Cli.total_pages_of
  rw [Nat.le_div_iff_mul_le (by omega)]
  omega

theorem resize_preserves (s : Cli.PageState) (rows : Nat) (h : Cli.PageInv s) :
    Cli.PageInv (Cli.resize rows s) ∧
    (Cli.resize rows s).current_page ≤ s.current_page ∧
    (Cli.resize rows s).story_ids = s.story_ids ∧
    1 ≤ (Cli.resize rows s).stories_per_page := by
  obtain ⟨h1, h2, h3, h4, h5⟩ := h
  unfold Cli.resize
  by_cases heq : s.stories_per_page = Cli.calculate_stories_per_page rows
  · rw [if_pos heq]
    exact ⟨⟨h1, h2, h3, h4, h5⟩, le_refl _, rfl, h4⟩
  · rw [if_neg heq]
    have hspp : 1 ≤ Cli.calculate_stories_per_page rows := by
      unfold Cli.calculate_stories_per_page
      omega
    have hlen : 1 ≤ s.story_ids.length := List.length_pos.mpr h5
    have htp :
        1 ≤ Cli.total_pages_of s.story_ids.length (Cli.calculate_stories_per_page rows) :=
      one_le_total_pages _ _ hlen hspp
    exact ⟨⟨le_min h1 htp, min_le_right _ _, rfl, hspp, h5⟩, min_le_left _ _, rfl, hspp⟩

/-- C2 counterexample: the claimed invariant `1 <= current_page <= total_pages`
is not maintained by the refresh command.  In a session that starts with 20
stories at 10 per page (a valid state), going to page 2 and then refreshing
when the re-fetched ID list has a single story leaves `current_page = 2`
while `total_pages = 1`: the refresh branch recomputes `total_pages` but
never clamps `current_page`. -/
theorem pagination_refresh_claim_false :
    Cli.PageInv (Cli.browse_init (List.range 20) 10) ∧
    ¬ ((Cli.browse_step 18 "r" [1]
          (Cli.browse_step 18 "n" [] (Cli.browse_init (List.range 20) 10))).current_page ≤
        (Cli.browse_step 18 "r" [1]
          (Cli.browse_step 18 "n" [] (Cli.browse_init (List.range 20) 10))).total_pages) := by
  decide

/-- C2 (amended): in a browse session that starts with at least one story,
`1 <= current_page <= total_pages` is preserved by every loop iteration —
resize recomputation (which clamps `current_page`) followed by advance
(no-op at the last page), retreat (no-op at the first page), story-number
jump (no page change), or quit — and by refresh provided the re-fetched ID
list is non-empty and still spans at least `current_page` pages; the code
does not clamp `current_page` after a refresh, so a shorter re-fetched
list can violate the invariant. -/
theorem pagination_invariant_preserved (s : Cli.PageState) (rows : Nat)
    (command : String) (fetched : List Nat) (h : Cli.PageInv s)
    (hr : py_lower command = "r" →
      fetched ≠ [] ∧
        s.current_page ≤
          Cli.total_pages_of fetched.length (Cli.resize rows s).stories_per_page) :
    Cli.PageInv (Cli.browse_step rows command fetched s) := by
  obtain ⟨hres, hcp, hids, hspp1⟩ := resize_preserves s rows h
  set t := Cli.resize rows s with ht
  obtain ⟨h1, h2, h3, h4, h5⟩ := hres
  unfold Cli.browse_step Cli.apply_command
  rw [← ht]
  by_cases hn : py_lower command = "n"
  · rw [if_pos hn]
    by_cases hlt : t.current_page < t.total_pages
    · rw [if_pos hlt]
      refine ⟨?_, ?_, h3, h4, h5⟩
      · show 1 ≤ t.current_page + 1
        omega
      · show t.current_page + 1 ≤ t.total_pages
        omega
    · rw [if_neg hlt]
      exact ⟨h1, h2, h3, h4, h5⟩
  · rw [if_neg hn]
    by_cases hp : py_lower command = "p"
    · rw [if_pos hp]
      by_cases hgt : t.current_page > 1
      · rw [if_pos hgt]
        refine ⟨?_, ?_, h3, h4, h5⟩
        · show 1 ≤ t.current_page - 1
          omega
        · show t.current_page - 1 ≤ t.total_pages
          omega
      · rw [if_neg hgt]
        exact ⟨h1, h2, h3, h4, h5⟩
    · rw [if_neg hp]
      by_cases hrr : py_lower command = "r"
      · rw [if_pos hrr]
        obtain ⟨hfe, hcple⟩ := hr hrr
        refine ⟨h1, ?_, rfl, h4, hfe⟩
        show t.current_page ≤ Cli.total_pages_of fetched.length t.stories_per_page
        omega
      · rw [if_neg hrr]
        by_cases hq : py_lower command = "q"
        · rw [if_pos hq]
          exact ⟨h1, h2, h3, h4, h5⟩
        · rw [if_neg hq]
          by_cases hd : py_isdigit command
          · rw [if_pos hd]
            exact ⟨h1, h2, h3, h4, h5⟩
          · rw [if_neg hd]
            exact ⟨h1, h2, h3, h4, h5⟩

/-- Witness for `pagination_invariant_preserved`: a refresh from a valid
state on page 1 of 2 with a re-fetched list of 30 ids keeps the invariant. -/
theorem pagination_invariant_preserved_witness :
    Cli.PageInv (Cli.browse_step 18 "r" (List.range 30) (Cli.browse_init (List.range 20) 10)) :=
  pagination_invariant_preserved (Cli.browse_init (List.range 20) 10) 18 "r" (List.range 30)
    (by decide) (fun _ => ⟨by decide, by decide⟩)

/-- C5: cache disk failures are swallowed: a `set` whose disk write fails
still stores the entry in memory; `clear` empties the memory map for any
pattern of file-deletion failures, after which any `get` reports absent;
`clear_expired` removes exactly the expired entries from memory for any
deletion-failure pattern; and the startup load skips a malformed file and
loads the rest exactly as if the malformed file were not there.  All four
operations are total functions of the failure flags: no disk error
propagates. -/
theorem cache_disk_failures_swallowed (m : Cache.CacheMap) (disk : Cache.Disk)
    (k q km : String) (v : Json) (now ttl : Int) (write_ok : Bool)
    (del_ok : String → Bool) (f1 f2 : Cache.Disk) :
    ((Cache.set_op m disk k v now write_ok).1 k = some (now, v)) ∧
    ((Cache.clear m disk del_ok).1 q = none) ∧
    (Cache.get (Cache.clear m disk del_ok).1 q ttl now = Json.null) ∧
    ((Cache.clear_expired m disk ttl now del_ok).1 q =
      match m q with
      | some (ts, e) => if now - ts < ttl then some (ts, e) else none
      | none => none) ∧
    (Cache.load_cache_from_disk (f1 ++ (km, none) :: f2) m =
      Cache.load_cache_from_disk (f1 ++ f2) m) := by
  refine ⟨?_, rfl, rfl, ?_, ?_⟩
  · show Cache.set m k v now k = some (now, v)
    unfold Cache.set
    exact if_pos rfl
  · show (if Cache.is_expired m ttl now q then none else m q) = _
    cases hm : m q with
    | none =>
      have hexp : Cache.is_expired m ttl now q = false := by
        unfold Cache.is_expired
        rw [hm]
      rw [hexp]
      simp [hm]
    | some e =>
      obtain ⟨ts, val⟩ := e
      have hexp : Cache.is_expired m ttl now q = decide (ttl ≤ now - ts) := by
        unfold Cache.is_expired
        rw [hm]
      rw [hexp]
      show (if decide (ttl ≤ now - ts) = true then none else some (ts, val)) =
        if now - ts < ttl then some (ts, val) else none
      by_cases hle : ttl ≤ now - ts
      · rw [if_pos (decide_eq_true hle), if_neg (by omega)]
      · rw [if_neg (fun hc => hle (of_decide_eq_true hc)), if_pos (by omega)]
  · induction f1 generalizing m with
    | nil =>
      show Cache.load_cache_from_disk ((km, none) :: f2) m = Cache.load_cache_from_disk f2 m
      rfl
    | cons hd tl ih =>
      obtain ⟨kh, eh⟩ := hd
      cases eh with
      | none =>
        show Cache.load_cache_from_disk (tl ++ (km, none) :: f2) m =
          Cache.load_cache_from_disk (tl ++ f2) m
        exact ih m
      | some entry =>
        show Cache.load_cache_from_disk (tl ++ (km, none) :: f2)
            (fun q' => if q' = kh then some entry else m q') =
          Cache.load_cache_from_disk (tl ++ f2)
            (fun q' => if q' = kh then some entry else m q')
        exact ih _

/-- C3 counterexample: the claim "whenever an unexpired cache entry exists
for the request's key, the operation returns the cached value and issues
no HTTP request" is false: with an unexpired cache entry holding the falsy
value `[]` under the key `stories_top`, `get_story_ids "top"` still issues
one HTTP GET (the request list is non-empty) and returns the freshly
fetched body, because the source checks `if cached:` and a cached empty
list is falsy. -/
theorem remote_truthiness_claim_false :
    ((fun q => if q = "stories_top" then some ((0 : Int), Json.arr []) else none) :
        Cache.CacheMap) "stories_top" = some (0, Json.arr []) ∧
    ((0 : Int) - 0 < 5 * 60) ∧
    Cli.get_story_ids "top" 5 0
        (fun q => if q = "stories_top" then some ((0 : Int), Json.arr []) else none)
        (fun _ => Except.ok (Json.arr [Json.num 1])) =
      Except.ok (Json.arr [Json.num 1],
        Cache.set (fun q => if q = "stories_top" then some ((0 : Int), Json.arr []) else none)
          "stories_top" (Json.arr [Json.num 1]) 0,
        [Cli.BASE_URL ++ "/topstories.json"]) := by
  refine ⟨rfl, by norm_num, ?_⟩
  rfl

/-- C3 (amended): for each of the three remote-client operations, whenever
an unexpired cache entry exists for the request's key *and its value is
truthy*, the operation returns the cached value, leaves the cache
unchanged, and issues no HTTP request; whenever the cache lookup yields a
falsy result (no entry, expired entry, or a cached falsy value), the
operation issues exactly one HTTP GET, and on success caches and returns
the parsed body (on a request failure the error propagates). -/
theorem remote_client_cache_first (st username : String) (item_id : Int)
    (ttl_minutes now ts : Int) (v : Json) (m : Cache.CacheMap)
    (http : String → Except String Json) :
    ((m (Cache.cache_key "stories" [st]) = some (ts, v) → now - ts < ttl_minutes * 60 →
        pyTruthy v = true →
        Cli.get_story_ids st ttl_minutes now m http = Except.ok (v, m, [])) ∧
      (pyTruthy (Cache.get m (Cache.cache_key "stories" [st]) (ttl_minutes * 60) now) = false →
        Cli.get_story_ids st ttl_minutes now m http =
          match http (Cli.BASE_URL ++ "/" ++ st ++ "stories.json") with
          | Except.ok r => Except.ok (r, Cache.set m (Cache.cache_key "stories" [st]) r now,
              [Cli.BASE_URL ++ "/" ++ st ++ "stories.json"])
          | Except.error e => Except.error e)) ∧
    ((m (Cache.cache_key "item" [toString item_id]) = some (ts, v) →
        now - ts < ttl_minutes * 60 → pyTruthy v = true →
        Cli.get_item item_id ttl_minutes now m http = Except.ok (v, m, [])) ∧
      (pyTruthy (Cache.get m (Cache.cache_key "item" [toString item_id])
            (ttl_minutes * 60) now) = false →
        Cli.get_item item_id ttl_minutes now m http =
          match http (Cli.ITEM_URL ++ "/" ++ toString item_id ++ ".json") with
          | Except.ok r => Except.ok (r, Cache.set m (Cache.cache_key "item" [toString item_id]) r now,
              [Cli.ITEM_URL ++ "/" ++ toString item_id ++ ".json"])
          | Except.error e => Except.error e)) ∧
    ((m (Cache.cache_key "user" [username]) = some (ts, v) → now - ts < ttl_minutes * 60 →
        pyTruthy v = true →
        Cli.get_user username ttl_minutes now m http = Except.ok (v, m, [])) ∧
      (pyTruthy (Cache.get m (Cache.cache_key "user" [username]) (ttl_minutes * 60) now) = false →
        Cli.get_user username ttl_minutes now m http =
          match http (Cli.USER_URL ++ "/" ++ username ++ ".json") with
          | Except.ok r => Except.ok (r, Cache.set m (Cache.cache_key "user" [username]) r now,
              [Cli.USER_URL ++ "/" ++ username ++ ".json"])
          | Except.error e => Except.error e)) := by
  refine ⟨⟨?_, ?_⟩, ⟨?_, ?_⟩, ⟨?_, ?_⟩⟩
  · intro hm hts htr
    have hc : Cache.get m (Cache.cache_key "stories" [st]) (ttl_minutes * 60) now = v := by
      unfold Cache.get
      rw [hm]
      show (if now - ts < ttl_minutes * 60 then v else Json.null) = v
      exact if_pos hts
    simp only [Cli.get_story_ids, hc, htr, if_true]
  · intro hf
    simp only [Cli.get_story_ids, hf, Bool.false_eq_true, if_false]
  · intro hm hts htr
    have hc : Cache.get m (Cache.cache_key "item" [toString item_id]) (ttl_minutes * 60) now
        = v := by
      unfold Cache.get
      rw [hm]
      show (if now - ts < ttl_minutes * 60 then v else Json.null) = v
      exact if_pos hts
    simp only [Cli.get_item, hc, htr, if_true]
  · intro hf
    simp only [Cli.get_item, hf, Bool.false_eq_true, if_false]
  · intro hm hts htr
    have hc : Cache.get m (Cache.cache_key "user" [username]) (ttl_minutes * 60) now = v := by
      unfold Cache.get
      rw [hm]
      show (if now - ts < ttl_minutes * 60 then v else Json.null) = v
      exact if_pos hts
    simp only [Cli.get_user, hc, htr, if_true]
  · intro hf
    simp only [Cli.get_user, hf, Bool.false_eq_true, if_false]

/-- Witness for `remote_client_cache_first`: a truthy unexpired cached
entry for `stories_top` is returned with no HTTP request even though the
HTTP layer would fail. -/
theorem remote_client_cache_first_witness :
    Cli.get_story_ids "top" 5 0
        (fun q => if q = "stories_top" then some ((0 : Int), Json.arr [Json.num 7]) else none)
        (fun _ => Except.error "network down") =
      Except.ok (Json.arr [Json.num 7],
        (fun q => if q = "stories_top" then some ((0 : Int), Json.arr [Json.num 7]) else none),
        []) :=
  (remote_client_cache_first "top" "alice" 1 5 0 0 (Json.arr [Json.num 7])
      (fun q => if q = "stories_top" then some ((0 : Int), Json.arr [Json.num 7]) else none)
      (fun _ => Except.error "network down")).1.1 rfl (by norm_num) rfl

/-- C7: `cache_key` is a deterministic pure function of the prefix and the
ordered argument list, and for the three prefixes the remote client uses
(single-argument `stories`, `item`, `user`), differing arguments never
produce the same key (for `item` the argument is `str(item_id)`, and
Python `str` on integers is injective). -/
theorem cache_key_deterministic_injective :
    (∀ (p1 p2 : String) (a1 a2 : List String), p1 = p2 → a1 = a2 →
      Cache.cache_key p1 a1 = Cache.cache_key p2 a2) ∧
    (∀ a b : String, Cache.cache_key "stories" [a] = Cache.cache_key "stories" [b] → a = b) ∧
    (∀ i j : Int,
      Cache.cache_key "item" [toString i] = Cache.cache_key "item" [toString j] → i = j) ∧
    (∀ a b : String, Cache.cache_key "user" [a] = Cache.cache_key "user" [b] → a = b) := by
  have hext : ∀ a b : String, a.data = b.data → a = b := by
    intro a b hab
    cases a
    cases b
    exact congrArg String.mk hab
  have hsingle : ∀ p a : String, Cache.cache_key p [a] = p ++ "_" ++ a := fun p a => rfl
  have hcancel : ∀ p a b : String, p ++ "_" ++ a = p ++ "_" ++ b → a = b := by
    intro p a b hpq
    have hd := congrArg String.data hpq
    rw [String.data_append, String.data_append, String.data_append, String.data_append,
      List.append_assoc, List.append_assoc] at hd
    exact hext a b (List.append_cancel_left (List.append_cancel_left hd))
  refine ⟨?_, ?_, ?_, ?_⟩
  · intro p1 p2 a1 a2 hp ha
    rw [hp, ha]
  · intro a b hk
    rw [hsingle, hsingle] at hk
    exact hcancel _ _ _ hk
  · intro i j hk
    rw [hsingle, hsingle] at hk
    exact Int_toString_injective (hcancel _ _ _ hk)
  · intro a b hk
    rw [hsingle, hsingle] at hk
    exact hcancel _ _ _ hk

/-- Witness for `cache_key_deterministic_injective` on concrete inputs:
identical calls collide and the `item` injectivity instance at 42. -/
theorem cache_key_deterministic_injective_witness :
    Cache.cache_key "stories" ["top"] = Cache.cache_key "stories" ["top"] ∧ (42 : Int) = 42 :=
  ⟨cache_key_deterministic_injective.1 "stories" "stories" ["top"] ["top"] rfl rfl,
   cache_key_deterministic_injective.2.2.1 42 42 rfl⟩

theorem filterMap_all_none {α β : Type} (f : α → Option β) (l : List α)
    (h : ∀ a ∈ l, f a = none) : l.filterMap f = [] := by
  induction l with
  | nil => rfl
  | cons a t ih =>
    rw [List.filterMap_cons, h a (List.mem_cons_self _ _)]
    exact ih (fun j hj => h j (List.mem_cons_of_mem _ hj))

theorem filterMap_all_some_length {α β : Type} (f : α → Option β) (l : List α)
    (h : ∀ a ∈ l, ∃ b, f a = some b) : (l.filterMap f).length = l.length := by
  induction l with
  | nil => rfl
  | cons a t ih =>
    obtain ⟨b, hb⟩ := h a (List.mem_cons_self _ _)
    rw [List.filterMap_cons, hb]
    simp only [List.length_cons]
    rw [ih (fun j hj => h j (List.mem_cons_of_mem _ hj))]

theorem filterMap_single {α β : Type} (f : α → Option β) (l : List α) (i : α) (b : β)
    (hnd : l.Nodup) (hi : i ∈ l) (hfi : f i = some b)
    (hother : ∀ j ∈ l, j ≠ i → f j = none) : l.filterMap f = [b] := by
  induction l with
  | nil => cases hi
  | cons a t ih =>
    obtain ⟨hnotin, hndt⟩ := List.nodup_cons.mp hnd
    rcases List.mem_cons.mp hi with rfl | hit
    · rw [List.filterMap_cons, hfi]
      have ht : t.filterMap f = [] :=
        filterMap_all_none f t (fun j hj =>
          hother j (List.mem_cons_of_mem _ hj) (fun he => hnotin (he ▸ hj)))
      rw [ht]
    · have hai : a ≠ i := fun he => hnotin (he ▸ hit)
      have hfa : f a = none := hother a (List.mem_cons_self _ _) hai
      rw [List.filterMap_cons, hfa]
      exact ih hndt hit (fun j hj hne => hother j (List.mem_cons_of_mem _ hj) hne)

theorem filterMap_length_one_none {α β : Type} (f : α → Option β) (l : List α) (i : α)
    (hnd : l.Nodup) (hi : i ∈ l) (hfi : f i = none)
    (hother : ∀ j ∈ l, j ≠ i → ∃ b, f j = some b) :
    (l.filterMap f).length = l.length - 1 := by
  induction l with
  | nil => cases hi
  | cons a t ih =>
    obtain ⟨hnotin, hndt⟩ := List.nodup_cons.mp hnd
    rcases List.mem_cons.mp hi with rfl | hit
    · rw [List.filterMap_cons, hfi]
      have ht : (t.filterMap f).length = t.length :=
        filterMap_all_some_length f t (fun j hj =>
          hother j (List.mem_cons_of_mem _ hj) (fun he => hnotin (he ▸ hj)))
      simp [ht]
    · have hai : a ≠ i := fun he => hnotin (he ▸ hit)
      obtain ⟨b, hb⟩ := hother a (List.mem_cons_self _ _) hai
      rw [List.filterMap_cons, hb]
      simp only [List.length_cons]
      rw [ih hndt hit (fun j hj hne => hother j (List.mem_cons_of_mem _ hj) hne)]
      have : 1 ≤ t.length := List.length_pos.mpr (fun he => by simp [he] at hit)
      omega

theorem load_page_characterisation (fetch : Nat → Except String Json) (ids : List Nat) :
    (Cli.load_page ids fetch).1 = ids.filterMap (fun id =>
        match fetch id with
        | Except.ok s => if Cli.is_story_item s then some s else none
        | Except.error _ => none) ∧
    (Cli.load_page ids fetch).2.1 = ids.filterMap (fun id =>
        match fetch id with
        | Except.ok _ => none
        | Except.error e => some ("Error fetching story " ++ toString id ++ ": " ++ e)) ∧
    (Cli.load_page ids fetch).2.2 = ids := by
  induction ids with
  | nil => exact ⟨rfl, rfl, rfl⟩
  | cons id rest ih =>
    obtain ⟨ih1, ih2, ih3⟩ := ih
    cases hf : fetch id with
    | ok s =>
      by_cases hst : Cli.is_story_item s = true
      · refine ⟨?_, ?_, ?_⟩ <;>
          simp [Cli.load_page, hf, hst, ih1, ih2, ih3, List.filterMap_cons]
      · refine ⟨?_, ?_, ?_⟩ <;>
          simp [Cli.load_page, hf, hst, ih1, ih2, ih3, List.filterMap_cons]
    | error e =>
      refine ⟨?_, ?_, ?_⟩ <;>
        simp [Cli.load_page, hf, ih1, ih2, ih3, List.filterMap_cons]

/-- C6: partial page failure is non-aborting: if the fetch of exactly one
item `i` of a page raises a request error while every other item fetches
successfully as a story, then the rendered page reports exactly one inline
error line for `i`, renders all the other `n - 1` stories (each fetched
item appears in the rendered list), and every id of the slice was
fetched. -/
theorem page_fetch_failure_isolated (ids : List Nat) (fetch : Nat → Except String Json)
    (i : Nat) (msg : String) (hnd : ids.Nodup) (hi : i ∈ ids)
    (hf : fetch i = Except.error msg)
    (hok : ∀ j, j ∈ ids → j ≠ i → ∃ s, fetch j = Except.ok s ∧ Cli.is_story_item s = true) :
    (Cli.load_page ids fetch).2.1 =
      ["Error fetching story " ++ toString i ++ ": " ++ msg] ∧
    (Cli.load_page ids fetch).1.length = ids.length - 1 ∧
    (∀ j s, j ∈ ids → j ≠ i → fetch j = Except.ok s → s ∈ (Cli.load_page ids fetch).1) ∧
    (Cli.load_page ids fetch).2.2 = ids := by
  obtain ⟨hc1, hc2, hc3⟩ := load_page_characterisation fetch ids
  refine ⟨?_, ?_, ?_, hc3⟩
  · rw [hc2]
    apply filterMap_single _ _ i _ hnd hi
    · rw [hf]
    · intro j hj hne
      obtain ⟨s, hs, _⟩ := hok j hj hne
      rw [hs]
  · rw [hc1]
    apply filterMap_length_one_none _ _ i hnd hi
    · rw [hf]
    · intro j hj hne
      obtain ⟨s, hs, hstory⟩ := hok j hj hne
      refine ⟨s, ?_⟩
      rw [hs]
      show (if Cli.is_story_item s = true then some s else none) = some s
      exact if_pos hstory
  · intro j s hj hne hfj
    rw [hc1]
    apply List.mem_filterMap.mpr
    refine ⟨j, hj, ?_⟩
    obtain ⟨s2, hs2, hstory2⟩ := hok j hj hne
    have hss : s2 = s := by
      rw [hfj] at hs2
      exact (Except.ok.inj hs2).symm
    rw [hfj]
    show (if Cli.is_story_item s = true then some s else none) = some s
    exact if_pos (hss ▸ hstory2)

/-- Witness for `page_fetch_failure_isolated`: a 3-item page where item 2
fails renders the other two stories plus one inline error line. -/
theorem page_fetch_failure_isolated_witness :
    (Cli.load_page [1, 2, 3]
        (fun n => if n = 2 then Except.error "boom"
          else Except.ok (Json.obj [("type", Json.str "story")]))).2.1 =
      ["Error fetching story 2: boom"] ∧
    (Cli.load_page [1, 2, 3]
        (fun n => if n = 2 then Except.error "boom"
          else Except.ok (Json.obj [("type", Json.str "story")]))).1.length = 2 ∧
    (Cli.load_page [1, 2, 3]
        (fun n => if n = 2 then Except.error "boom"
          else Except.ok (Json.obj [("type", Json.str "story")]))).2.2 = [1, 2, 3] := by
  have h := page_fetch_failure_isolated [1, 2, 3]
    (fun n => if n = 2 then Except.error "boom"
      else Except.ok (Json.obj [("type", Json.str "story")]))
    2 "boom" (by decide) (by decide) rfl
    (fun j _ hne => ⟨Json.obj [("type", Json.str "story")], by simp [hne], rfl⟩)
  exact ⟨h.1, h.2.1, h.2.2.2⟩

/-- C9: comments marked deleted or dead are excluded everywhere: the List
view's pre-fetched parent list contains only comments that are neither
deleted nor dead; the Expanded flatten of a deleted or dead comment is
empty and fetches nothing (so its whole subtree is pruned); and every item
id the flatten ever fetches is a kid of a live (non-deleted, non-dead)
comment, namely the root or a comment obtained from the store. -/
theorem deleted_comments_pruned (store : Cli.CommentStore)
    (unescape strip_tags : String → String) (fill : Nat → String → List String)
    (now : Int) (cols : Nat) :
    (∀ (ids : List Nat) (c : Comment), c ∈ Cli.parent_comments_of store ids →
        c.deleted = false ∧ c.dead = false) ∧
    (∀ (fuel depth : Nat) (c : Comment), c.deleted = true ∨ c.dead = true →
        Cli.collect store unescape strip_tags fill now cols fuel (some c) depth = ([], [])) ∧
    (∀ (fuel depth : Nat) (oc : Option Comment) (i : Nat),
        i ∈ (Cli.collect store unescape strip_tags fill now cols fuel oc depth).2 →
        ∃ p : Comment, p.deleted = false ∧ p.dead = false ∧ i ∈ p.kids ∧
          (oc = some p ∨ ∃ j : Nat, store j = some p)) := by
  refine ⟨?_, ?_, ?_⟩
  · intro ids
    induction ids with
    | nil =>
      intro c hc
      simp [Cli.parent_comments_of] at hc
    | cons cid rest ih =>
      intro c hc
      cases hs : store cid with
      | none =>
        rw [Cli.parent_comments_of, hs] at hc
        exact ih c hc
      | some c2 =>
        rw [Cli.parent_comments_of, hs] at hc
        have hc2 : c ∈ (if (!c2.deleted && !c2.dead) = true
            then c2 :: Cli.parent_comments_of store rest
            else Cli.parent_comments_of store rest) := hc
        by_cases hdd : (!c2.deleted && !c2.dead) = true
        · rw [if_pos hdd] at hc2
          rcases List.mem_cons.mp hc2 with rfl | hcr
          · simp only [Bool.and_eq_true, Bool.not_eq_true'] at hdd
            exact hdd
          · exact ih c hcr
        · rw [if_neg hdd] at hc2
          exact ih c hc2
  · intro fuel depth c hdd
    cases fuel with
    | zero => rfl
    | succ f =>
      have hcond : (c.deleted || c.dead) = true := by
        rcases hdd with h | h <;> simp [h]
      rw [Cli.collect.eq_def]
      simp [hcond]
  · intro fuel
    induction fuel with
    | zero =>
      intro depth oc i hmem
      cases oc with
      | none => simp [Cli.collect] at hmem
      | some c => simp [Cli.collect] at hmem
    | succ f ih =>
      intro depth oc i hmem
      cases oc with
      | none => simp [Cli.collect] at hmem
      | some c =>
        by_cases hdd : (c.deleted || c.dead) = true
        · rw [Cli.collect.eq_def] at hmem
          simp [hdd] at hmem
        · have hlive : c.deleted = false ∧ c.dead = false := by
            simp only [Bool.or_eq_true, not_or, Bool.not_eq_true] at hdd
            exact hdd
          have hsnd : (Cli.collect store unescape strip_tags fill now cols (f + 1)
              (some c) depth).2 =
              (c.kids.map (fun kid =>
                kid :: (Cli.collect store unescape strip_tags fill now cols f
                  (store kid) (depth + 1)).2)).flatten := by
            rw [Cli.collect.eq_def]
            simp only [hdd, Bool.false_eq_true, if_false, List.map_map]
            rfl
          rw [hsnd] at hmem
          obtain ⟨l, hl, hil⟩ := List.mem_flatten.mp hmem
          obtain ⟨kid, hkid, hleq⟩ := List.mem_map.mp hl
          rw [← hleq] at hil
          rcases List.mem_cons.mp hil with rfl | hrec
          · exact ⟨c, hlive.1, hlive.2, hkid, Or.inl rfl⟩
          · obtain ⟨p, hp1, hp2, hp3, hp4⟩ := ih (depth + 1) (store kid) i hrec
            refine ⟨p, hp1, hp2, hp3, Or.inr ?_⟩
            rcases hp4 with heq | ⟨j, hj⟩
            · exact ⟨kid, heq⟩
            · exact ⟨j, hj⟩

/-- Witness for `deleted_comments_pruned` on a concrete three-comment
store: the fetched parent is live, the flatten of the dead comment is
empty (its kid 4 is never fetched), and a fetched id inside a live
flatten has a live parent. -/
theorem deleted_comments_pruned_witness :
    ((⟨some "a", some 0, some "x", false, false, [2, 3]⟩ : Comment).deleted = false ∧
      (⟨some "a", some 0, some "x", false, false, [2, 3]⟩ : Comment).dead = false) ∧
    Cli.collect
        (fun i => if i = 1 then some ⟨some "a", some 0, some "x", false, false, [2, 3]⟩
          else if i = 2 then some ⟨none, none, none, false, false, []⟩
          else if i = 3 then some ⟨none, none, none, true, false, [4]⟩ else none)
        id id (fun _ _ => []) 0 80 5
        (some ⟨none, none, none, true, false, [4]⟩) 0 = ([], []) ∧
    (∃ p : Comment, p.deleted = false ∧ p.dead = false ∧ 2 ∈ p.kids ∧
      ((some ⟨some "a", some 0, some "x", false, false, [2, 3]⟩ : Option Comment) = some p ∨
        ∃ j : Nat,
          (fun i => if i = 1 then some ⟨some "a", some 0, some "x", false, false, [2, 3]⟩
            else if i = 2 then some ⟨none, none, none, false, false, []⟩
            else if i = 3 then some ⟨none, none, none, true, false, [4]⟩ else none) j
            = some p)) := by
  refine ⟨?_, ?_, ?_⟩
  · exact (deleted_comments_pruned
      (fun i => if i = 1 then some ⟨some "a", some 0, some "x", false, false, [2, 3]⟩
        else if i = 2 then some ⟨none, none, none, false, false, []⟩
        else if i = 3 then some ⟨none, none, none, true, false, [4]⟩ else none)
      id id (fun _ _ => []) 0 80).1 [1] _ (by decide)
  · exact (deleted_comments_pruned
      (fun i => if i = 1 then some ⟨some "a", some 0, some "x", false, false, [2, 3]⟩
        else if i = 2 then some ⟨none, none, none, false, false, []⟩
        else if i = 3 then some ⟨none, none, none, true, false, [4]⟩ else none)
      id id (fun _ _ => []) 0 80).2.1 5 0 _ (Or.inl rfl)
  · exact (deleted_comments_pruned
      (fun i => if i = 1 then some ⟨some "a", some 0, some "x", false, false, [2, 3]⟩
        else if i = 2 then some ⟨none, none, none, false, false, []⟩
        else if i = 3 then some ⟨none, none, none, true, false, [4]⟩ else none)
      id id (fun _ _ => []) 0 80).2.2 3 0
      (some ⟨some "a", some 0, some "x", false, false, [2, 3]⟩) 2 (by decide)

end HNCli
